import Mathlib

/-
Verification of the qbscript interpreter (src/src/lib.rs): a shallow
embedding of the parser and the evaluator, followed by theorems about the
claims of the specification.

Modelling conventions:
- Rust `isize` is modelled as `Int` (the spec states no overflow checking is
  required, and no claim exercises overflow).
- The Rust mutable environment `HashMap<&str, Elem>` is modelled as an
  association list with front insertion and first-match lookup, which has the
  same observable lookup/insert semantics; `eval` threads the environment
  explicitly and returns the updated one.
- Rust panics (out-of-range indexing in the evaluator, the `unwrap` in the
  `number` parser) are modelled as `none` in the evaluator and as the
  dedicated `PResult.crash` constructor in the parser.
- Evaluation is given fuel (the Rust code recurses unboundedly); `none` also
  covers fuel exhaustion.  Every claim is stated for explicitly sufficient
  fuel.
-/

namespace Qbscript

inductive Atom where
  | Symbol (name : String) : Atom
  | String (value : String) : Atom
  | Number (value : Int) : Atom
  deriving DecidableEq, Repr

inductive Elem where
  | Atom (a : Atom) : Elem
  | Single (a : Atom) : Elem
  | Call (items : List Elem) : Elem
  | List (items : List Elem) : Elem

abbrev Env := List (String × Elem)

/-- Models `env.contains_key(name)` / `env[name]` on the Rust `HashMap`. -/
def lookup : Env → String → Option Elem
  | [], _ => none
  | (k, v) :: rest, name => if k = name then some v else lookup rest name

/-- Models `env.insert(name, v)` on the Rust `HashMap`. -/
def insert (env : Env) (name : String) (v : Elem) : Env :=
  (name, v) :: env

/-- `Elem::cons` from src/src/lib.rs lines 264-272. -/
def Elem.cons : Elem → Elem → Elem
  | a, .Call items => .List (a :: items)
  | a, .List items => .List (a :: items)
  | a, b => .List [a, b]

/-- `Elem::rcons` from src/src/lib.rs lines 274-282. -/
def Elem.rcons : Elem → Elem → Elem
  | .Call items, other => .List (items ++ [other])
  | .List items, other => .List (items ++ [other])
  | s, other => .List [s, other]

/-- `Elem::car` from src/src/lib.rs lines 284-294.  Note the final catch-all
returns `self`, not an empty list. -/
def Elem.car : Elem → Elem
  | .Call [] => .List []
  | .List [] => .List []
  | .Call (x :: _) => x
  | .List (x :: _) => x
  | e => e

/-- `Elem::cdr` from src/src/lib.rs lines 296-307. -/
def Elem.cdr : Elem → Elem
  | .Call [] => .List []
  | .List [] => .List []
  | .Call (_ :: rest) => .List rest
  | .List (_ :: rest) => .List rest
  | _ => .List []

/-- `Elem::atom` from src/src/lib.rs lines 309-314. -/
def Elem.atom : Elem → Elem
  | .Atom _ => .Single (.Symbol "t")
  | .Single _ => .Single (.Symbol "t")
  | _ => .List []

/-- `Elem::not` from src/src/lib.rs lines 316-325. -/
def Elem.not : Elem → Elem
  | .List [] => .Single (.Symbol "t")
  | .Call [] => .Single (.Symbol "t")
  | .List (_ :: _) => .List []
  | .Call (_ :: _) => .List []
  | _ => .List []

/-- The payload shared by the `Elem::Atom(a) | Elem::Single(a)` or-patterns of
the Rust `eq`/`ne` methods. -/
def Elem.atomOf : Elem → Option Qbscript.Atom
  | .Atom a => some a
  | .Single a => some a
  | _ => none

/-- `Elem::eq` from src/src/lib.rs lines 327-339: the or-patterns extract the
atom payload of either an `Atom` or a `Single` and compare payloads. -/
def Elem.eq (x y : Elem) : Elem :=
  match x.atomOf with
  | some a =>
    match y.atomOf with
    | some b => if a = b then .Single (.Symbol "t") else .List []
    | none => .List []
  | none => .List []

/-- `Elem::ne` from src/src/lib.rs lines 341-353. -/
def Elem.ne (x y : Elem) : Elem :=
  match x.atomOf with
  | some a =>
    match y.atomOf with
    | some b => if a ≠ b then .Single (.Symbol "t") else .List []
    | none => .List []
  | none => .List []

/-- The numeric payload matched by the `Atom(Number(a)) | Single(Number(a))`
or-patterns of `Elem::compare`. -/
def Elem.numOf : Elem → Option Int
  | .Atom (.Number a) => some a
  | .Single (.Number a) => some a
  | _ => none

/-- `Elem::compare` from src/src/lib.rs lines 355-367. -/
def Elem.compare (x y : Elem) (order : Ordering) : Elem :=
  match x.numOf with
  | some a =>
    match y.numOf with
    | some b => if Ord.compare a b = order then .Single (.Symbol "t") else .List []
    | none => .List []
  | none => .List []

mutual

/-- `Elem::eval` / `Elem::eval_atom` / `Elem::eval_call` from
src/src/lib.rs lines 158-262, with the built-in dispatch inlined.  The first
argument is fuel; out-of-range indexing (a Rust panic) and fuel exhaustion
both yield `none`. -/
def Elem.eval : Nat → Elem → Env → Option (Elem × Env)
  | 0, _, _ => none
  | _ + 1, .Atom (.Symbol name), env =>
    match lookup env name with
    | some v => some (v, env)
    | none => some (.Atom (.Symbol name), env)
  | _ + 1, .Atom a, env => some (.Atom a, env)
  | _ + 1, .List items, env => some (.List items, env)
  | _ + 1, .Single a, env => some (.Atom a, env)
  | n + 1, .Call items, env =>
    match items with
    | [] => some (.Call [], env)
    | i0 :: rest =>
      match i0 with
      | .Atom (.Symbol "cons") =>
        match rest.get? 0 with
        | none => none
        | some e1 =>
          match Elem.eval n e1 env with
          | none => none
          | some (a, env1) =>
            match rest.get? 1 with
            | none => none
            | some e2 =>
              match Elem.eval n e2 env1 with
              | none => none
              | some (b, env2) => some (a.cons b, env2)
      | .Atom (.Symbol "append") =>
        match rest.get? 0 with
        | none => none
        | some e1 =>
          match Elem.eval n e1 env with
          | none => none
          | some (a, env1) =>
            match rest.get? 1 with
            | none => none
            | some e2 =>
              match Elem.eval n e2 env1 with
              | none => none
              | some (b, env2) => some (a.rcons b, env2)
      | .Atom (.Symbol "list") =>
        match list_items n rest env with
        | none => none
        | some (ls, env') => some (.List ls, env')
      | .Atom (.Symbol "head") =>
        match rest.get? 0 with
        | none => none
        | some e1 =>
          match Elem.eval n e1 env with
          | none => none
          | some (v, env') => some (v.car, env')
      | .Atom (.Symbol "tail") =>
        match rest.get? 0 with
        | none => none
        | some e1 =>
          match Elem.eval n e1 env with
          | none => none
          | some (v, env') => some (v.cdr, env')
      | .Atom (.Symbol "atom") =>
        match rest.get? 0 with
        | none => none
        | some e1 =>
          match Elem.eval n e1 env with
          | none => none
          | some (v, env') => some (v.atom, env')
      | .Atom (.Symbol "not") =>
        match rest.get? 0 with
        | none => none
        | some e1 =>
          match Elem.eval n e1 env with
          | none => none
          | some (v, env') => some (v.not, env')
      | .Atom (.Symbol "eq") =>
        match rest.get? 0 with
        | none => none
        | some e1 =>
          match Elem.eval n e1 env with
          | none => none
          | some (a, env1) =>
            match rest.get? 1 with
            | none => none
            | some e2 =>
              match Elem.eval n e2 env1 with
              | none => none
              | some (b, env2) => some (a.eq b, env2)
      | .Atom (.Symbol "ne") =>
        match rest.get? 0 with
        | none => none
        | some e1 =>
          match Elem.eval n e1 env with
          | none => none
          | some (a, env1) =>
            match rest.get? 1 with
            | none => none
            | some e2 =>
              match Elem.eval n e2 env1 with
              | none => none
              | some (b, env2) => some (a.ne b, env2)
      | .Atom (.Symbol "lt") =>
        match rest.get? 0 with
        | none => none
        | some e1 =>
          match Elem.eval n e1 env with
          | none => none
          | some (a, env1) =>
            match rest.get? 1 with
            | none => none
            | some e2 =>
              match Elem.eval n e2 env1 with
              | none => none
              | some (b, env2) => some (a.compare b .lt, env2)
      | .Atom (.Symbol "gt") =>
        match rest.get? 0 with
        | none => none
        | some e1 =>
          match Elem.eval n e1 env with
          | none => none
          | some (a, env1) =>
            match rest.get? 1 with
            | none => none
            | some e2 =>
              match Elem.eval n e2 env1 with
              | none => none
              | some (b, env2) => some (a.compare b .gt, env2)
      | .Atom (.Symbol "le") =>
        match rest.get? 0 with
        | none => none
        | some e1 =>
          match Elem.eval n e1 env with
          | none => none
          | some (a, env1) =>
            match rest.get? 1 with
            | none => none
            | some e2 =>
              match Elem.eval n e2 env1 with
              | none => none
              | some (b, env2) => some ((a.compare b .gt).not, env2)
      | .Atom (.Symbol "ge") =>
        match rest.get? 0 with
        | none => none
        | some e1 =>
          match Elem.eval n e1 env with
          | none => none
          | some (a, env1) =>
            match rest.get? 1 with
            | none => none
            | some e2 =>
              match Elem.eval n e2 env1 with
              | none => none
              | some (b, env2) => some ((a.compare b .lt).not, env2)
      | .Atom (.Symbol "if") =>
        match rest.get? 0 with
        | none => none
        | some e1 =>
          match Elem.eval n e1 env with
          | none => none
          | some (c, env1) =>
            match rest.get? 1 with
            | none => none
            | some t =>
              match rest.get? 2 with
              | none => none
              | some f => Elem.ifelse n c t f env1
      | .Atom (.Symbol "cond") => cond_items n rest env
      | .Atom (.Symbol "add") =>
        match add_items n (i0 :: rest) 0 env with
        | none => none
        | some (sum, env') => some (.Atom (.Number sum), env')
      | .Atom (.Symbol "let") =>
        match rest.get? 0 with
        | none => none
        | some nm =>
          match nm with
          | .Atom (.Symbol name) =>
            match rest.get? 1 with
            | none => none
            | some e2 => some (.Atom (.Symbol name), insert env name e2)
          | _ => some (.Call (i0 :: rest), env)
      | .Atom (.Symbol name) =>
        match lookup env name with
        | some v => Elem.eval n (.Call (v :: rest)) env
        | none => some (.Call (i0 :: rest), env)
      | .Call subitems =>
        match subitems.get? 0 with
        | none => none
        | some s0 =>
          match s0 with
          | .Atom (.Symbol "fun") =>
            match subitems.get? 1 with
            | none => none
            | some p =>
              match p with
              | .List names =>
                match bind_params n names 1 (i0 :: rest) env env with
                | none => none
                | some (env_m, env') =>
                  match subitems.get? 2 with
                  | none => none
                  | some body =>
                    match Elem.eval n body env_m with
                    | none => none
                    | some (r, _) => some (r, env')
              | _ => some (.Call (i0 :: rest), env)
          | _ => some (.Call (i0 :: rest), env)
      | _ => some (.Call (i0 :: rest), env)

/-- `Elem::ifelse` from src/src/lib.rs lines 369-374: the branch choice
depends only on the node kind of the evaluated condition. -/
def Elem.ifelse : Nat → Elem → Elem → Elem → Env → Option (Elem × Env)
  | 0, _, _, _, _ => none
  | n + 1, .Atom _, t, _, env => Elem.eval n t env
  | n + 1, .Single _, t, _, env => Elem.eval n t env
  | n + 1, _, _, f, env => Elem.eval n f env

/-- The clause loop of `Elem::cond` from src/src/lib.rs lines 376-392,
applied to the items after the leading `cond` symbol. -/
def cond_items : Nat → List Elem → Env → Option (Elem × Env)
  | _, [], env => some (.List [], env)
  | 0, _ :: _, _ => none
  | n + 1, item :: rest, env =>
    match item with
    | .List pair =>
      match pair.get? 0 with
      | none => none
      | some t =>
        match Elem.eval n t env with
        | none => none
        | some (.Atom _, env') =>
          match pair.get? 1 with
          | none => none
          | some r => Elem.eval n r env'
        | some (.Single _, env') =>
          match pair.get? 1 with
          | none => none
          | some r => Elem.eval n r env'
        | some (_, env') => cond_items n rest env'
    | _ => cond_items n rest env

/-- The operand loop of the `list` built-in (src/src/lib.rs lines 187-198),
applied to the items after the leading `list` symbol. -/
def list_items : Nat → List Elem → Env → Option (List Elem × Env)
  | _, [], env => some ([], env)
  | 0, _ :: _, _ => none
  | n + 1, x :: rest, env =>
    match Elem.eval n x env with
    | none => none
    | some (v, env') =>
      match list_items n rest env' with
      | none => none
      | some (vs, env2) => some (v :: vs, env2)

/-- The summing loop of the `add` built-in (src/src/lib.rs lines 211-219).
Note the Rust loop runs over all the call's items, including the leading
`add` symbol itself. -/
def add_items : Nat → List Elem → Int → Env → Option (Int × Env)
  | _, [], sum, env => some (sum, env)
  | 0, _ :: _, _, _ => none
  | n + 1, x :: rest, sum, env =>
    match Elem.eval n x env with
    | none => none
    | some (.Atom (.Number addend), env') => add_items n rest (sum + addend) env'
    | some (_, env') => add_items n rest sum env'

/-- The parameter-binding loop of direct `fun` application
(src/src/lib.rs lines 240-248): arguments are evaluated under the caller
environment `env` (threaded through), bindings go into the cloned `env_m`,
a non-`Symbol` parameter skips both the binding and the argument
evaluation, and a missing argument is an out-of-range panic (`none`). -/
def bind_params : Nat → List Elem → Nat → List Elem → Env → Env → Option (Env × Env)
  | _, [], _, _, env_m, env => some (env_m, env)
  | 0, _ :: _, _, _, _, _ => none
  | n + 1, name :: more, i, items, env_m, env =>
    match name with
    | .Atom (.Symbol s) =>
      match items.get? i with
      | none => none
      | some arg =>
        match Elem.eval n arg env with
        | none => none
        | some (v, env') => bind_params n more (i + 1) items (insert env_m s v) env'
    | _ => bind_params n more (i + 1) items env_m env

end

/-- A parse outcome: `ok remaining node`, a structured nom failure `fail`, or
`crash` for the unchecked `unwrap` panic inside the `number` parser. -/
inductive PResult where
  | ok (remaining : List Char) (node : Elem) : PResult
  | fail : PResult
  | crash : PResult

/-- A `many0` outcome: the loop itself never fails, but a panic inside an
iteration propagates. -/
inductive MResult where
  | ok (remaining : List Char) (items : List Elem) : MResult
  | crash : MResult

/-- Rust `char::is_whitespace`: the Unicode White_Space code points
(U+0009..U+000D, U+0020, U+0085, U+00A0, U+1680, U+2000..U+200A, U+2028,
U+2029, U+202F, U+205F, U+3000). -/
def is_unicode_whitespace (c : Char) : Bool :=
  (0x9 ≤ c.toNat && c.toNat ≤ 0xD) || c.toNat == 0x20 || c.toNat == 0x85 ||
  c.toNat == 0xA0 || c.toNat == 0x1680 || (0x2000 ≤ c.toNat && c.toNat ≤ 0x200A) ||
  c.toNat == 0x2028 || c.toNat == 0x2029 || c.toNat == 0x202F || c.toNat == 0x205F ||
  c.toNat == 0x3000

/-- `is_atom` from src/src/lib.rs lines 102-104; `char::is_whitespace` is
Unicode whitespace. -/
def is_atom (c : Char) : Bool :=
  !is_unicode_whitespace c && c != '(' && c != ')' && c != '[' && c != ']'

/-- `is_string` from src/src/lib.rs lines 106-108. -/
def is_string (c : Char) : Bool :=
  c != '"'

/-- `is_number` from src/src/lib.rs lines 110-112. -/
def is_number (c : Char) : Bool :=
  c.isDigit || c == '-'

/-- nom `take_while1`: the longest nonempty prefix satisfying the predicate,
returned as `(remaining, taken)`; fails when the prefix is empty. -/
def take_while1 (p : Char → Bool) (input : List Char) : Option (List Char × List Char) :=
  match input.takeWhile p with
  | [] => none
  | taken => some (input.dropWhile p, taken)

/-- nom `tag` restricted to the one-character tags the source uses. -/
def tag1 (t : Char) : List Char → Option (List Char)
  | [] => none
  | c :: rest => if c = t then some rest else none

/-- nom `multispace0`: drop leading whitespace. -/
def multispace0 (input : List Char) : List Char :=
  input.dropWhile Char.isWhitespace

/-- The trailing half of the `ws` combinator (src/src/lib.rs lines 90-94):
on success, consume trailing whitespace; the leading `multispace0` is applied
at each call site. -/
def ws_after : PResult → PResult
  | .ok rest e => .ok (multispace0 rest) e
  | r => r

/-- The value of a nonempty digit string. -/
def digits_value (s : List Char) : Nat :=
  s.foldl (fun acc c => acc * 10 + (c.toNat - '0'.toNat)) 0

/-- `isize::from_str_radix(s, 10)`: an optional sign followed by one or more
digits; anything else is an error (which the source unwraps, i.e. panics).
Overflow is not modelled (the spec requires no overflow checking). -/
def parse_isize (s : List Char) : Option Int :=
  match s with
  | [] => none
  | c :: rest =>
    if c = '+' then
      if rest ≠ [] ∧ rest.all Char.isDigit then some (digits_value rest) else none
    else if c = '-' then
      if rest ≠ [] ∧ rest.all Char.isDigit then some (-(digits_value rest : Int)) else none
    else
      if (c :: rest).all Char.isDigit then some (digits_value (c :: rest)) else none

/-- `number` from src/src/lib.rs lines 114-117: note the `unwrap` on the
integer conversion, modelled by `crash`. -/
def number (input : List Char) : PResult :=
  match take_while1 is_number input with
  | none => .fail
  | some (rest, svalue) =>
    match parse_isize svalue with
    | none => .crash
    | some value => .ok rest (.Atom (.Number value))

/-- `symbol` from src/src/lib.rs lines 119-122. -/
def symbol (input : List Char) : PResult :=
  match take_while1 is_atom input with
  | none => .fail
  | some (rest, name) => .ok rest (.Atom (.Symbol (String.mk name)))

/-- `string` from src/src/lib.rs lines 124-127 (the `dq` combinator inlined). -/
def string (input : List Char) : PResult :=
  match tag1 '"' input with
  | none => .fail
  | some rest =>
    match take_while1 is_string rest with
    | none => .fail
    | some (rest2, contents) =>
      match tag1 '"' rest2 with
      | none => .fail
      | some rest3 => .ok rest3 (.Atom (.String (String.mk contents)))

/-- `atom` from src/src/lib.rs lines 129-131: `alt((string, number, symbol))`.
A `crash` is a panic, not a parse error, so it propagates instead of
backtracking. -/
def atom (input : List Char) : PResult :=
  match string input with
  | .fail =>
    match number input with
    | .fail => symbol input
    | r => r
  | r => r

/-- `single` from src/src/lib.rs lines 133-137. -/
def single (input : List Char) : PResult :=
  match tag1 '#' input with
  | none => .fail
  | some rest =>
    match take_while1 is_atom rest with
    | none => .fail
    | some (rest2, name) => .ok rest2 (.Single (.Symbol (String.mk name)))

mutual

/-- `expr` from src/src/lib.rs lines 153-155:
`alt((ws(single), ws(list), ws(call), ws(atom)))`, with the `ws` combinator
inlined and fuel for the recursion through `call`/`list`. -/
def expr : Nat → List Char → PResult
  | 0, _ => .fail
  | n + 1, input =>
    match ws_after (single (multispace0 input)) with
    | .fail =>
      match ws_after (list n (multispace0 input)) with
      | .fail =>
        match ws_after (call n (multispace0 input)) with
        | .fail => ws_after (atom (multispace0 input))
        | r => r
      | r => r
    | r => r

/-- `call` from src/src/lib.rs lines 139-144. -/
def call : Nat → List Char → PResult
  | 0, _ => .fail
  | n + 1, input =>
    match tag1 '(' input with
    | none => .fail
    | some rest =>
      match many0_expr n rest with
      | .crash => .crash
      | .ok rest2 items =>
        match tag1 ')' rest2 with
        | none => .fail
        | some rest3 => .ok rest3 (.Call items)

/-- `list` from src/src/lib.rs lines 146-151. -/
def list : Nat → List Char → PResult
  | 0, _ => .fail
  | n + 1, input =>
    match tag1 '[' input with
    | none => .fail
    | some rest =>
      match many0_expr n rest with
      | .crash => .crash
      | .ok rest2 items =>
        match tag1 ']' rest2 with
        | none => .fail
        | some rest3 => .ok rest3 (.List items)

/-- nom `many0(expr)`: collect successful parses, stop at the first failure,
propagate a panic. -/
def many0_expr : Nat → List Char → MResult
  | 0, input => .ok input []
  | n + 1, input =>
    match expr n input with
    | .fail => .ok input []
    | .crash => .crash
    | .ok rest e =>
      match many0_expr n rest with
      | .crash => .crash
      | .ok rest2 items => .ok rest2 (e :: items)

end

/-- On `Int`, `Ord.compare x y = lt` holds exactly when `x < y` (the Rust
`a.cmp(&b) == Ordering::Less`). -/
theorem int_compare_lt_iff (x y : Int) : Ord.compare x y = Ordering.lt ↔ x < y := by
  simp [Ord.compare, instOrdInt, compareOfLessAndEq]

/-- On `Int`, `Ord.compare x y = gt` holds exactly when `y < x` (the Rust
`a.cmp(&b) == Ordering::Greater`). -/
theorem int_compare_gt_iff (x y : Int) : Ord.compare x y = Ordering.gt ↔ y < x := by
  simp [Ord.compare, instOrdInt, compareOfLessAndEq]
  omega

/-- C1, counterexample: the claim states that `(head x)` returns the empty
`List` whenever `x` evaluates to an `Atom` or `Single`, but `Elem::car`'s
catch-all arm returns `self`: `(head 5)` evaluates to `5`, which is not the
empty `List`. -/
theorem head_of_number_counterexample :
    Elem.eval 3 (.Call [.Atom (.Symbol "head"), .Atom (.Number 5)]) [] =
      some (.Atom (.Number 5), []) ∧
    Elem.Atom (.Number 5) ≠ Elem.List [] :=
  ⟨rfl, by simp⟩

/-- C1, amended: `(head x)` evaluates the operand and applies `Elem::car`:
the first item when the result is a non-empty `Call`/`List`, the empty `List`
when it is an empty `Call`/`List`, and the evaluated operand itself (not the
empty `List`) when it is an `Atom` or `Single`. -/
theorem head_call_behavior (fuel : Nat) (x : Elem) (env : Env) (v : Elem) (env' : Env)
    (h : Elem.eval fuel x env = some (v, env')) :
    Elem.eval (fuel + 1) (.Call [.Atom (.Symbol "head"), x]) env = some (v.car, env') ∧
    (∀ i is, Elem.car (.List (i :: is)) = i) ∧
    (∀ i is, Elem.car (.Call (i :: is)) = i) ∧
    Elem.car (.List []) = .List [] ∧
    Elem.car (.Call []) = .List [] ∧
    (∀ a, Elem.car (.Atom a) = .Atom a) ∧
    (∀ a, Elem.car (.Single a) = .Single a) := by
  refine ⟨?_, fun i is => rfl, fun i is => rfl, rfl, rfl, fun a => rfl, fun a => rfl⟩
  simp [Elem.eval, h]

/-- C1, witness: `(head [7 8])` evaluates to `7`. -/
theorem head_call_behavior_witness :
    Elem.eval 2 (.Call [.Atom (.Symbol "head"), .List [.Atom (.Number 7), .Atom (.Number 8)]]) [] =
      some (.Atom (.Number 7), []) :=
  (head_call_behavior 1 (.List [.Atom (.Number 7), .Atom (.Number 8)]) [] _ [] rfl).1

/-- C2, counterexample: the claim states all four of `lt`, `gt`, `le`, `ge`
return false (the empty `List`) whenever an operand evaluates to a
non-`Number`, but `le` is `not(gt a b)` and `Elem::not` of the empty-`List`
comparison result is truthy: `(le "x" 1)` evaluates to `#t`. -/
theorem le_nonnumeric_counterexample :
    Elem.eval 3 (.Call [.Atom (.Symbol "le"), .Atom (.String "x"), .Atom (.Number 1)]) [] =
      some (.Single (.Symbol "t"), []) ∧
    Elem.Single (.Symbol "t") ≠ Elem.List [] :=
  ⟨rfl, by simp⟩

/-- C2, amended: `lt`/`gt` are truthy exactly when both operands evaluate to
numeric payloads (`numOf`) and the comparison holds, and return the empty
`List` otherwise; `le` is `not(gt a b)` and `ge` is `not(lt a b)`, so they
are truthy exactly when the underlying `gt`/`lt` fails — in particular they
are truthy, not false, whenever either operand evaluates to a non-`Number`. -/
theorem comparison_call_behavior (fuel : Nat) (a b : Elem) (env : Env)
    (va : Elem) (env1 : Env) (vb : Elem) (env2 : Env)
    (ha : Elem.eval fuel a env = some (va, env1))
    (hb : Elem.eval fuel b env1 = some (vb, env2)) :
    Elem.eval (fuel + 1) (.Call [.Atom (.Symbol "lt"), a, b]) env =
      some (va.compare vb .lt, env2) ∧
    Elem.eval (fuel + 1) (.Call [.Atom (.Symbol "gt"), a, b]) env =
      some (va.compare vb .gt, env2) ∧
    Elem.eval (fuel + 1) (.Call [.Atom (.Symbol "le"), a, b]) env =
      some ((va.compare vb .gt).not, env2) ∧
    Elem.eval (fuel + 1) (.Call [.Atom (.Symbol "ge"), a, b]) env =
      some ((va.compare vb .lt).not, env2) ∧
    (va.compare vb .lt = .Single (.Symbol "t") ↔
      ∃ x y, va.numOf = some x ∧ vb.numOf = some y ∧ x < y) ∧
    (va.compare vb .gt = .Single (.Symbol "t") ↔
      ∃ x y, va.numOf = some x ∧ vb.numOf = some y ∧ y < x) ∧
    (∀ o, va.compare vb o ≠ .Single (.Symbol "t") → va.compare vb o = .List []) ∧
    ((va.compare vb .gt).not = .Single (.Symbol "t") ↔
      ¬∃ x y, va.numOf = some x ∧ vb.numOf = some y ∧ y < x) ∧
    ((va.compare vb .lt).not = .Single (.Symbol "t") ↔
      ¬∃ x y, va.numOf = some x ∧ vb.numOf = some y ∧ x < y) ∧
    (va.numOf = none ∨ vb.numOf = none →
      (va.compare vb .gt).not = .Single (.Symbol "t") ∧
      (va.compare vb .lt).not = .Single (.Symbol "t")) := by
  refine ⟨by simp [Elem.eval, ha, hb], by simp [Elem.eval, ha, hb],
    by simp [Elem.eval, ha, hb], by simp [Elem.eval, ha, hb], ?_, ?_, ?_, ?_, ?_, ?_⟩
  · unfold Elem.compare
    cases va.numOf <;> cases vb.numOf <;> simp [int_compare_lt_iff]
  · unfold Elem.compare
    cases va.numOf <;> cases vb.numOf <;> simp [int_compare_gt_iff]
  · intro o
    unfold Elem.compare
    cases va.numOf <;> cases vb.numOf <;> simp
  · unfold Elem.compare
    cases va.numOf <;> cases vb.numOf <;>
      simp [Elem.not, int_compare_gt_iff] <;> split_ifs with h <;> simp [Elem.not, h] <;> omega
  · unfold Elem.compare
    cases va.numOf <;> cases vb.numOf <;>
      simp [Elem.not, int_compare_lt_iff] <;> split_ifs with h <;> simp [Elem.not, h] <;> omega
  · intro hnone
    unfold Elem.compare
    rcases hnone with hn | hn <;> rw [hn]
    · exact ⟨rfl, rfl⟩
    · cases va.numOf <;> exact ⟨rfl, rfl⟩

/-- C2, witness: `(lt 3 5)` is truthy, and `(le "x" 1)` is truthy even
though its first operand is not a `Number`. -/
theorem comparison_call_behavior_witness :
    Elem.eval 2 (.Call [.Atom (.Symbol "lt"), .Atom (.Number 3), .Atom (.Number 5)]) [] =
      some (.Single (.Symbol "t"), []) ∧
    Elem.eval 2 (.Call [.Atom (.Symbol "le"), .Atom (.String "x"), .Atom (.Number 1)]) [] =
      some (.Single (.Symbol "t"), []) := by
  have h1 := comparison_call_behavior 1 (.Atom (.Number 3)) (.Atom (.Number 5)) []
    (.Atom (.Number 3)) [] (.Atom (.Number 5)) [] rfl rfl
  have h2 := comparison_call_behavior 1 (.Atom (.String "x")) (.Atom (.Number 1)) []
    (.Atom (.String "x")) [] (.Atom (.Number 1)) [] rfl rfl
  exact ⟨h1.1, h2.2.2.1⟩

/-- C3, counterexample: the claim states `(add)` with no operands returns `0`
in every environment, but the Rust loop runs over all of the call's items
including the leading `add` symbol, which is evaluated: with `add` bound to
`5` in the environment, `(add)` evaluates to `5`, not `0`. -/
theorem add_head_bound_counterexample :
    Elem.eval 3 (.Call [.Atom (.Symbol "add")]) [("add", .Atom (.Number 5))] =
      some (.Atom (.Number 5), [("add", .Atom (.Number 5))]) ∧
    Elem.Atom (.Number 5) ≠ Elem.Atom (.Number 0) :=
  ⟨rfl, by simp⟩

/-- C3, amended: `(add a b ...)` evaluates every item of the call, the
leading `add` symbol included, in order; items evaluating to a `Number`
contribute to the sum, every other item is skipped without error, and the
initial sum is `0`.  Whenever the symbol `add` is unbound (so its evaluation
yields itself, a non-`Number`), the result is exactly the sum over the
supplied operands, and `(add)` returns `0`. -/
theorem add_call_behavior (fuel : Nat) (ops : List Elem) (env : Env)
    (h : lookup env "add" = none) :
    Elem.eval (fuel + 3) (.Call (.Atom (.Symbol "add") :: ops)) env =
      (match add_items (fuel + 1) ops 0 env with
       | none => none
       | some (s, env') => some (.Atom (.Number s), env')) ∧
    (∀ f s env0, add_items f [] s env0 = some (s, env0)) ∧
    (∀ f x rest s env0 m env1, Elem.eval f x env0 = some (.Atom (.Number m), env1) →
      add_items (f + 1) (x :: rest) s env0 = add_items f rest (s + m) env1) ∧
    (∀ f x rest s env0 v env1, Elem.eval f x env0 = some (v, env1) →
      (∀ m, v ≠ .Atom (.Number m)) →
      add_items (f + 1) (x :: rest) s env0 = add_items f rest s env1) ∧
    Elem.eval (fuel + 3) (.Call [.Atom (.Symbol "add")]) env =
      some (.Atom (.Number 0), env) := by
  refine ⟨?_, fun f s env0 => by cases f <;> rfl, ?_, ?_, ?_⟩
  · simp [Elem.eval, add_items, h]
  · intro f x rest s env0 m env1 hx
    simp [add_items, hx]
  · intro f x rest s env0 v env1 hx hv
    cases v with
    | Atom a =>
      cases a with
      | Number m => exact absurd rfl (hv m)
      | Symbol s0 => simp [add_items, hx]
      | String s0 => simp [add_items, hx]
    | Single a => simp [add_items, hx]
    | Call its => simp [add_items, hx]
    | List its => simp [add_items, hx]
  · simp [Elem.eval, add_items, h]

/-- C3, witness: in the empty environment `(add)` evaluates to `0`. -/
theorem add_call_behavior_witness :
    Elem.eval 3 (.Call [.Atom (.Symbol "add")]) [] = some (.Atom (.Number 0), []) :=
  (add_call_behavior 0 [] [] rfl).2.2.2.2

/-- C4: `(eq a b)` is truthy exactly when both operands evaluate to nodes
carrying an atom payload (`Atom` or `Single`, via `atomOf`) whose payloads
are structurally equal in kind (`Symbol`/`String`/`Number`) and content, and
`(ne a b)` exactly when both carry payloads that are structurally unequal;
when either side evaluates to a `Call`/`List` (no payload), both return the
empty `List` — so two equal `List`s are not `ne`-unequal either. -/
theorem eq_ne_call_behavior (fuel : Nat) (a b : Elem) (env : Env)
    (va : Elem) (env1 : Env) (vb : Elem) (env2 : Env)
    (ha : Elem.eval fuel a env = some (va, env1))
    (hb : Elem.eval fuel b env1 = some (vb, env2)) :
    Elem.eval (fuel + 1) (.Call [.Atom (.Symbol "eq"), a, b]) env = some (va.eq vb, env2) ∧
    Elem.eval (fuel + 1) (.Call [.Atom (.Symbol "ne"), a, b]) env = some (va.ne vb, env2) ∧
    (va.eq vb = .Single (.Symbol "t") ↔
      ∃ x y, va.atomOf = some x ∧ vb.atomOf = some y ∧ x = y) ∧
    (va.ne vb = .Single (.Symbol "t") ↔
      ∃ x y, va.atomOf = some x ∧ vb.atomOf = some y ∧ x ≠ y) ∧
    (va.eq vb ≠ .Single (.Symbol "t") → va.eq vb = .List []) ∧
    (va.ne vb ≠ .Single (.Symbol "t") → va.ne vb = .List []) ∧
    (va.atomOf = none ∨ vb.atomOf = none → va.eq vb = .List [] ∧ va.ne vb = .List []) := by
  refine ⟨by simp [Elem.eval, ha, hb], by simp [Elem.eval, ha, hb], ?_, ?_, ?_, ?_, ?_⟩
  · unfold Elem.eq
    cases va.atomOf <;> cases vb.atomOf <;> simp
  · unfold Elem.ne
    cases va.atomOf <;> cases vb.atomOf <;> simp
  · unfold Elem.eq
    cases va.atomOf <;> cases vb.atomOf <;> simp
  · unfold Elem.ne
    cases va.atomOf <;> cases vb.atomOf <;> simp
  · intro hnone
    unfold Elem.eq Elem.ne
    rcases hnone with hn | hn <;> rw [hn]
    · exact ⟨rfl, rfl⟩
    · cases va.atomOf <;> exact ⟨rfl, rfl⟩

/-- C4, witness: `(eq k k)` on two equal symbols is truthy, and `(ne [] [])`
on two equal lists is the empty `List` (false). -/
theorem eq_ne_call_behavior_witness :
    Elem.eval 2 (.Call [.Atom (.Symbol "eq"), .Atom (.Symbol "k"), .Atom (.Symbol "k")]) [] =
      some (.Single (.Symbol "t"), []) ∧
    Elem.eval 2 (.Call [.Atom (.Symbol "ne"), .List [], .List []]) [] =
      some (.List [], []) := by
  have h1 := eq_ne_call_behavior 1 (.Atom (.Symbol "k")) (.Atom (.Symbol "k")) []
    (.Atom (.Symbol "k")) [] (.Atom (.Symbol "k")) [] rfl rfl
  have h2 := eq_ne_call_behavior 1 (.List []) (.List []) [] (.List []) [] (.List []) [] rfl rfl
  exact ⟨h1.1, h2.2.1⟩

/-- C6: `(let name expr)` with `name` an `Atom(Symbol s)` stores `expr`
unevaluated (the raw syntax node) under `s` and returns the name symbol atom
itself; with any other `name` the call evaluates to itself unchanged and the
environment is untouched. -/
theorem let_call_behavior (fuel : Nat) (nm e : Elem) (env : Env) :
    (∀ s, nm = .Atom (.Symbol s) →
      Elem.eval (fuel + 1) (.Call [.Atom (.Symbol "let"), nm, e]) env =
        some (.Atom (.Symbol s), insert env s e)) ∧
    ((∀ s, nm ≠ .Atom (.Symbol s)) →
      Elem.eval (fuel + 1) (.Call [.Atom (.Symbol "let"), nm, e]) env =
        some (.Call [.Atom (.Symbol "let"), nm, e], env)) ∧
    (∀ s, lookup (insert env s e) s = some e) := by
  refine ⟨?_, ?_, ?_⟩
  · rintro s rfl
    simp [Elem.eval]
  · intro hns
    cases nm with
    | Atom a =>
      cases a with
      | Symbol s => exact absurd rfl (hns s)
      | String s => simp [Elem.eval]
      | Number v => simp [Elem.eval]
    | Single a => simp [Elem.eval]
    | Call items => simp [Elem.eval]
    | List items => simp [Elem.eval]
  · intro s
    simp [lookup, insert]

/-- C6, witness: `(let x 7)` binds `x` to the raw node `7` and returns the
atom `x`; `(let 9 7)` evaluates to itself and binds nothing. -/
theorem let_call_behavior_witness :
    Elem.eval 1 (.Call [.Atom (.Symbol "let"), .Atom (.Symbol "x"), .Atom (.Number 7)]) [] =
      some (.Atom (.Symbol "x"), [("x", .Atom (.Number 7))]) ∧
    Elem.eval 1 (.Call [.Atom (.Symbol "let"), .Atom (.Number 9), .Atom (.Number 7)]) [] =
      some (.Call [.Atom (.Symbol "let"), .Atom (.Number 9), .Atom (.Number 7)], []) :=
  ⟨(let_call_behavior 0 (.Atom (.Symbol "x")) (.Atom (.Number 7)) []).1 "x" rfl,
   (let_call_behavior 0 (.Atom (.Number 9)) (.Atom (.Number 7)) []).2.1 (fun s h => by cases h)⟩

/-- C7: applying a `fun` procedure evaluates the body in the snapshot
environment produced by `bind_params` (a clone of the caller environment
extended with the parameter bindings, threading argument evaluation through
the caller environment), and the caller environment returned by the
application is exactly the one threaded through the argument evaluations:
the body's final environment `envB` — holding any `let`s or parameter
bindings made during the body — is discarded. -/
theorem fun_application_frame (fuel : Nat) (names : List Elem) (body : Elem)
    (args : List Elem) (env env_m env' : Env) (r : Elem) (envB : Env)
    (hbind : bind_params fuel names 1
      (.Call [.Atom (.Symbol "fun"), .List names, body] :: args) env env = some (env_m, env'))
    (hbody : Elem.eval fuel body env_m = some (r, envB)) :
    Elem.eval (fuel + 1) (.Call (.Call [.Atom (.Symbol "fun"), .List names, body] :: args)) env =
      some (r, env') := by
  simp [Elem.eval, hbind, hbody]

/-- C7, witness: applying `(fun [n] (let m 5))` to `1` in the empty caller
environment returns with the caller environment still empty — the `let m`
and the binding of `n` performed inside the body do not leak. -/
theorem fun_application_frame_witness :
    Elem.eval 3 (.Call [.Call [.Atom (.Symbol "fun"), .List [.Atom (.Symbol "n")],
        .Call [.Atom (.Symbol "let"), .Atom (.Symbol "m"), .Atom (.Number 5)]],
        .Atom (.Number 1)]) [] =
      some (.Atom (.Symbol "m"), []) :=
  fun_application_frame 2 [.Atom (.Symbol "n")]
    (.Call [.Atom (.Symbol "let"), .Atom (.Symbol "m"), .Atom (.Number 5)])
    [.Atom (.Number 1)] [] [("n", .Atom (.Number 1))] []
    (.Atom (.Symbol "m")) [("m", .Atom (.Number 5)), ("n", .Atom (.Number 1))] rfl rfl

/-- C8: truthiness is asymmetric between `not` and `if`: `(not [])` is
truthy while `(if [] "T" "F")` picks `"F"`; `Elem::ifelse` chooses the
branch from the node kind alone (any `Call`/`List` selects the else branch,
any `Atom`/`Single` the then branch), while `Elem::not` is truthy only on an
empty `Call`/`List` and false on non-empty sequences and all
`Atom`/`Single`s. -/
theorem truthiness_asymmetry :
    Elem.eval 2 (.Call [.Atom (.Symbol "not"), .List []]) [] =
      some (.Single (.Symbol "t"), []) ∧
    Elem.eval 3 (.Call [.Atom (.Symbol "if"), .List [], .Atom (.String "T"), .Atom (.String "F")]) [] =
      some (.Atom (.String "F"), []) ∧
    (∀ fuel items t f env, Elem.ifelse (fuel + 1) (.List items) t f env = Elem.eval fuel f env) ∧
    (∀ fuel items t f env, Elem.ifelse (fuel + 1) (.Call items) t f env = Elem.eval fuel f env) ∧
    (∀ fuel a t f env, Elem.ifelse (fuel + 1) (.Atom a) t f env = Elem.eval fuel t env) ∧
    (∀ fuel a t f env, Elem.ifelse (fuel + 1) (.Single a) t f env = Elem.eval fuel t env) ∧
    (∀ i is, Elem.not (.List (i :: is)) = .List [] ∧ Elem.not (.Call (i :: is)) = .List []) ∧
    (∀ a, Elem.not (.Atom a) = .List [] ∧ Elem.not (.Single a) = .List []) ∧
    Elem.not (.List []) = .Single (.Symbol "t") ∧
    Elem.not (.Call []) = .Single (.Symbol "t") :=
  ⟨rfl, rfl, fun _ _ _ _ _ => rfl, fun _ _ _ _ _ => rfl, fun _ _ _ _ _ => rfl,
   fun _ _ _ _ _ => rfl, fun _ _ => ⟨rfl, rfl⟩, fun _ => ⟨rfl, rfl⟩, rfl, rfl⟩

/-- C9: with `a` evaluating to `av` and `L` to a `List` of `items`,
`(head (cons a L))` evaluates to `av` and `(tail (cons a L))` evaluates to
the `List` of exactly `items`, for any list including the empty one. -/
theorem cons_head_tail_laws (fuel : Nat) (a l : Elem) (env : Env)
    (av : Elem) (env1 : Env) (items : List Elem) (env2 : Env)
    (ha : Elem.eval fuel a env = some (av, env1))
    (hl : Elem.eval fuel l env1 = some (.List items, env2)) :
    Elem.eval (fuel + 2) (.Call [.Atom (.Symbol "head"), .Call [.Atom (.Symbol "cons"), a, l]]) env =
      some (av, env2) ∧
    Elem.eval (fuel + 2) (.Call [.Atom (.Symbol "tail"), .Call [.Atom (.Symbol "cons"), a, l]]) env =
      some (.List items, env2) := by
  constructor
  · simp [Elem.eval, ha, hl, Elem.cons, Elem.car]
  · simp [Elem.eval, ha, hl, Elem.cons, Elem.cdr]

/-- C9, witness: `(head (cons 1 [2]))` is `1` and `(tail (cons 1 [2]))` is
`[2]`. -/
theorem cons_head_tail_laws_witness :
    Elem.eval 3 (.Call [.Atom (.Symbol "head"),
        .Call [.Atom (.Symbol "cons"), .Atom (.Number 1), .List [.Atom (.Number 2)]]]) [] =
      some (.Atom (.Number 1), []) ∧
    Elem.eval 3 (.Call [.Atom (.Symbol "tail"),
        .Call [.Atom (.Symbol "cons"), .Atom (.Number 1), .List [.Atom (.Number 2)]]]) [] =
      some (.List [.Atom (.Number 2)], []) :=
  cons_head_tail_laws 1 _ _ [] _ _ _ _ rfl rfl

/-- C10: `cond` dispatches to the clause loop `cond_items`; a clause that is
an `Atom`, `Single` or `Call` node is skipped without evaluating anything
and without error (the environment and outcome equal those of the remaining
clauses); when the clauses are exhausted the result is the empty `List`; and
a `List` clause whose test evaluates to a non-`Atom`/`Single` passes control
to the remaining clauses under the test's output environment. -/
theorem cond_clause_filtering :
    (∀ fuel clauses env,
      Elem.eval (fuel + 1) (.Call (.Atom (.Symbol "cond") :: clauses)) env =
        cond_items fuel clauses env) ∧
    (∀ fuel rest env a, cond_items (fuel + 1) (.Atom a :: rest) env = cond_items fuel rest env) ∧
    (∀ fuel rest env a, cond_items (fuel + 1) (.Single a :: rest) env = cond_items fuel rest env) ∧
    (∀ fuel rest env citems,
      cond_items (fuel + 1) (.Call citems :: rest) env = cond_items fuel rest env) ∧
    (∀ fuel env, cond_items fuel [] env = some (.List [], env)) ∧
    (∀ fuel t rp rest env v env', Elem.eval fuel t env = some (v, env') → v.atomOf = none →
      cond_items (fuel + 1) (.List (t :: rp) :: rest) env = cond_items fuel rest env') := by
  refine ⟨fun fuel clauses env => rfl, fun _ _ _ _ => rfl, fun _ _ _ _ => rfl,
    fun _ _ _ _ => rfl, fun fuel env => ?_, ?_⟩
  · cases fuel <;> rfl
  · intro fuel t rp rest env v env' ht hv
    simp only [cond_items, List.get?, ht]
    cases v with
    | Atom a => simp [Elem.atomOf] at hv
    | Single a => simp [Elem.atomOf] at hv
    | Call its => rfl
    | List its => rfl

/-- C10, witness: a `Call` clause is skipped without evaluation, a `List`
clause whose test `[]` evaluates to a non-atom falls through, and the
exhausted `cond` returns the empty `List`. -/
theorem cond_clause_filtering_witness :
    cond_items 3 [.Call [.Atom (.Symbol "t")], .List [.List [], .Atom (.Number 1)]] [] =
      some (.List [], []) := by
  have h := cond_clause_filtering
  rw [h.2.2.2.1]
  rw [h.2.2.2.2.2 1 (Elem.List []) [Elem.Atom (Atom.Number 1)] [] [] (Elem.List []) [] rfl rfl]
  exact h.2.2.2.2.1 1 []

end Qbscript
